import Mathlib

/-!
Shallow embedding of `.builder/actions/crt_size_check.py` (class `CrtSizeCheck`,
method `run`).  The script walks the four directories `dist/bin`, `dist/browser`,
`dist/common` and `dist/native` under the project root, sums the byte sizes of
every file found, prints per-directory subtotals and a grand total, and raises
`Exception('NPM package exceeds size limit')` when the grand total exceeds
`max_size = 5_000_000` bytes.

The filesystem is modelled as a tree of named files with byte sizes; `os.walk`
becomes `os_walk`, which on a missing directory yields no entries (as `os.walk`
does on a nonexistent path).  Console output is modelled as a list of `Event`s
emitted in program order, and the raised exception as an `Exn` value carrying
its message string.
-/

/-- A regular file: a name and a `stat`-reported size in bytes. -/
structure FSFile where
  name : String
  size : Nat
deriving DecidableEq

/-- A directory tree: the files directly inside, and the named subdirectories. -/
inductive FSTree where
  | node : List FSFile → List (String × FSTree) → FSTree

/-- `os.path.join` on POSIX paths, as used by the script. -/
def joinPath (a b : String) : String := a ++ "/" ++ b

mutual
/-- `os.walk(top)` on an existing directory tree: yields `(root, files)` for the
top directory first, then recursively for each subdirectory in order (the
script never uses the `dirs` component, so it is not materialised). -/
def walkTree (top : String) : FSTree → List (String × List FSFile)
  | .node files subdirs => (top, files) :: walkSubdirs top subdirs

def walkSubdirs (top : String) : List (String × FSTree) → List (String × List FSFile)
  | [] => []
  | (n, t) :: rest => walkTree (joinPath top n) t ++ walkSubdirs top rest
end

/-- `os.walk` on a possibly missing directory: a nonexistent path yields no
entries rather than an error. -/
def os_walk (top : String) : Option FSTree → List (String × List FSFile)
  | none => []
  | some t => walkTree top t

mutual
/-- All files found anywhere under a tree, each listed exactly once. -/
def treeFiles : FSTree → List FSFile
  | .node files subdirs => files ++ treeFilesList subdirs

def treeFilesList : List (String × FSTree) → List FSFile
  | [] => []
  | (_, t) :: rest => treeFiles t ++ treeFilesList rest
end

/-- `os.path.getsize(fp)`: the byte size of a file. -/
def getsize (f : FSFile) : Nat := f.size

/-- `os.stat(fp).st_size`: the byte size of a file as reported by `stat`
(`os.path.getsize` is specified to return exactly this value). -/
def stat_st_size (f : FSFile) : Nat := f.size

/-- One line of console output of the script. -/
inductive Event where
  | fileReport (path : String) (size : Nat)
  | dirReport (label : String) (size : Nat)
  | totalReport (size : Nat)
deriving DecidableEq

/-- The raised Python exception, carrying only its message string. -/
structure Exn where
  message : String
deriving DecidableEq

/-- Result of one invocation of `CrtSizeCheck.run`: the console output in
order, the final value of `total_size`, and the raised exception if any. -/
structure RunResult where
  events : List Event
  total_size : Nat
  error : Option Exn
deriving DecidableEq

/-- `max_size = 5_000_000`: maximum package size in bytes. -/
def max_size : Nat := 5000000

/-- The project-root structure the script reads: the four tracked directories,
each possibly missing. -/
structure ProjectFS where
  dist_bin : Option FSTree
  dist_browser : Option FSTree
  dist_common : Option FSTree
  dist_native : Option FSTree

/-- Body of the `dist/bin` per-file loop: if the file is named
`aws-crt-nodejs.node`, print its individual size (via `os.stat(fp).st_size`);
then add `os.path.getsize(fp)` to `folder_size`.  State is the pair
(events printed so far, `folder_size`). -/
def binStep (root : String) (st : List Event × Nat) (f : FSFile) : List Event × Nat :=
  let st1 := if f.name = "aws-crt-nodejs.node" then
      (st.1 ++ [Event.fileReport (joinPath root f.name) (stat_st_size f)], st.2)
    else st
  (st1.1, st1.2 + getsize f)

/-- The `dist/bin` walk loop of the script. -/
def binLoop (entries : List (String × List FSFile)) (st : List Event × Nat) :
    List Event × Nat :=
  entries.foldl (fun st e => e.2.foldl (binStep e.1) st) st

/-- The walk loop used for `dist/browser`, `dist/common` and `dist/native`:
add `os.path.getsize(fp)` for every file into `folder_size`. -/
def dirLoop (entries : List (String × List FSFile)) (folder_size : Nat) : Nat :=
  entries.foldl (fun acc e => e.2.foldl (fun a f => a + getsize f) acc) folder_size

/-- Sum of the sizes of all files in a list of walk entries. -/
def folderSize (entries : List (String × List FSFile)) : Nat :=
  (entries.map (fun e => (e.2.map getsize).sum)).sum

/-- The individual per-file reports emitted by the `dist/bin` loop, in walk
order. -/
def binReports (entries : List (String × List FSFile)) : List Event :=
  (entries.map (fun e => e.2.filterMap (fun f =>
    if f.name = "aws-crt-nodejs.node" then
      some (Event.fileReport (joinPath e.1 f.name) (stat_st_size f))
    else none))).flatten

/-- `CrtSizeCheck.run`: walk the four tracked directories in order, printing
each subtotal and accumulating the grand total, then print the grand total and
raise the exception when it exceeds `max_size`. -/
def run (projectPath : String) (fs : ProjectFS) : RunResult :=
  let (binEvents, binSize) :=
    binLoop (os_walk (joinPath projectPath "dist/bin") fs.dist_bin) ([], 0)
  let total1 := 0 + binSize
  let browserSize :=
    dirLoop (os_walk (joinPath projectPath "dist/browser") fs.dist_browser) 0
  let total2 := total1 + browserSize
  let commonSize :=
    dirLoop (os_walk (joinPath projectPath "dist/common") fs.dist_common) 0
  let total3 := total2 + commonSize
  let nativeSize :=
    dirLoop (os_walk (joinPath projectPath "dist/native") fs.dist_native) 0
  let total := total3 + nativeSize
  { events := binEvents ++
      [Event.dirReport "dist/bin" binSize,
       Event.dirReport "dist/browser" browserSize,
       Event.dirReport "dist/common" commonSize,
       Event.dirReport "dist/native" nativeSize,
       Event.totalReport total],
    total_size := total,
    error := if total > max_size then some ⟨"NPM package exceeds size limit"⟩ else none }

/-- A filesystem read: `os.walk` written with explicit state passing, returning
the (unchanged) filesystem alongside its result. -/
def walk_st (top : String) (sel : ProjectFS → Option FSTree) (fs : ProjectFS) :
    List (String × List FSFile) × ProjectFS :=
  (os_walk top (sel fs), fs)

/-- `CrtSizeCheck.run` with the filesystem threaded explicitly through every
read it performs, returning the final filesystem state. -/
def runFSState (projectPath : String) (fs0 : ProjectFS) : RunResult × ProjectFS :=
  let (binEntries, fs1) := walk_st (joinPath projectPath "dist/bin") ProjectFS.dist_bin fs0
  let (binEvents, binSize) := binLoop binEntries ([], 0)
  let total1 := 0 + binSize
  let (browserEntries, fs2) :=
    walk_st (joinPath projectPath "dist/browser") ProjectFS.dist_browser fs1
  let browserSize := dirLoop browserEntries 0
  let total2 := total1 + browserSize
  let (commonEntries, fs3) :=
    walk_st (joinPath projectPath "dist/common") ProjectFS.dist_common fs2
  let commonSize := dirLoop commonEntries 0
  let total3 := total2 + commonSize
  let (nativeEntries, fs4) :=
    walk_st (joinPath projectPath "dist/native") ProjectFS.dist_native fs3
  let nativeSize := dirLoop nativeEntries 0
  let total := total3 + nativeSize
  ({ events := binEvents ++
      [Event.dirReport "dist/bin" binSize,
       Event.dirReport "dist/browser" browserSize,
       Event.dirReport "dist/common" commonSize,
       Event.dirReport "dist/native" nativeSize,
       Event.totalReport total],
     total_size := total,
     error := if total > max_size then some ⟨"NPM package exceeds size limit"⟩ else none },
   fs4)

/-- A possibly missing directory with no files anywhere under it. -/
def emptyDir : Option FSTree → Prop
  | none => True
  | some t => treeFiles t = []

instance : DecidablePred emptyDir := fun d =>
  match d with
  | none => isTrue trivial
  | some t => inferInstanceAs (Decidable (treeFiles t = []))

/-- Total size of all files under a possibly missing directory, computed from
the recursive enumeration `treeFiles` (independently of `os_walk`). -/
def dirTreeSize : Option FSTree → Nat
  | none => 0
  | some t => ((treeFiles t).map getsize).sum

/-- Specification-level grand total: the exact sum of the sizes of every file
found under the four tracked directories. -/
def specTotalSize (fs : ProjectFS) : Nat :=
  dirTreeSize fs.dist_bin + dirTreeSize fs.dist_browser +
    dirTreeSize fs.dist_common + dirTreeSize fs.dist_native

/-- Subtotal of one tracked directory as the script computes it. -/
def dirSubtotal (projectPath rel : String) (d : Option FSTree) : Nat :=
  folderSize (os_walk (joinPath projectPath rel) d)

/-- Size of a `dirReport` event; `none` on the other event kinds. -/
def dirReportSize : Event → Option Nat
  | .dirReport _ s => some s
  | _ => none

/-! ### Concrete filesystems used as witnesses -/

/-- The designated binary artifact, 500 bytes. -/
def artifact500 : FSFile := ⟨"aws-crt-nodejs.node", 500⟩

/-- A project root in which all four tracked directories are missing. -/
def fsAllMissing : ProjectFS := ⟨none, none, none, none⟩

/-- A project root whose `dist/bin` holds only the 500-byte artifact. -/
def fsArtifact : ProjectFS := ⟨some (.node [artifact500] []), none, none, none⟩

/-- A project root whose files total `max_size + 1` bytes. -/
def fsOver1 : ProjectFS := ⟨some (.node [⟨"big.bin", 5000001⟩] []), none, none, none⟩

/-- A project root whose files total 6,000,000 bytes. -/
def fsOver2 : ProjectFS := ⟨some (.node [⟨"big.bin", 6000000⟩] []), none, none, none⟩

/-! ### Helper lemmas -/

theorem binStep_eq (root : String) (st : List Event × Nat) (f : FSFile) :
    binStep root st f =
      (st.1 ++ (if f.name = "aws-crt-nodejs.node" then
          [Event.fileReport (joinPath root f.name) (stat_st_size f)] else []),
        st.2 + getsize f) := by
  by_cases h : f.name = "aws-crt-nodejs.node" <;> simp [binStep, h]

theorem binFold_files (root : String) (files : List FSFile) (st : List Event × Nat) :
    files.foldl (binStep root) st =
      (st.1 ++ files.filterMap (fun f =>
          if f.name = "aws-crt-nodejs.node" then
            some (Event.fileReport (joinPath root f.name) (stat_st_size f))
          else none),
        st.2 + (files.map getsize).sum) := by
  induction files generalizing st with
  | nil => simp
  | cons f rest ih =>
    by_cases h : f.name = "aws-crt-nodejs.node" <;>
      simp [List.foldl_cons, binStep_eq, h, ih, List.filterMap_cons, Nat.add_assoc]

theorem folderSize_cons (e : String × List FSFile) (entries : List (String × List FSFile)) :
    folderSize (e :: entries) = (e.2.map getsize).sum + folderSize entries := by
  simp [folderSize]

theorem folderSize_append (a b : List (String × List FSFile)) :
    folderSize (a ++ b) = folderSize a + folderSize b := by
  simp [folderSize]

theorem binLoop_eq (entries : List (String × List FSFile)) (st : List Event × Nat) :
    binLoop entries st = (st.1 ++ binReports entries, st.2 + folderSize entries) := by
  induction entries generalizing st with
  | nil => simp [binLoop, binReports, folderSize]
  | cons e rest ih =>
    have hstep : binLoop (e :: rest) st = binLoop rest (e.2.foldl (binStep e.1) st) := rfl
    rw [hstep, ih, binFold_files]
    simp [binReports, folderSize_cons, Nat.add_assoc]

theorem dirFold_files (files : List FSFile) (n : Nat) :
    files.foldl (fun a f => a + getsize f) n = n + (files.map getsize).sum := by
  induction files generalizing n with
  | nil => simp
  | cons f rest ih => simp [List.foldl_cons, ih, Nat.add_assoc]

theorem dirLoop_eq (entries : List (String × List FSFile)) (n : Nat) :
    dirLoop entries n = n + folderSize entries := by
  induction entries generalizing n with
  | nil => simp [dirLoop, folderSize]
  | cons e rest ih =>
    have hstep : dirLoop (e :: rest) n = dirLoop rest (e.2.foldl (fun a f => a + getsize f) n) :=
      rfl
    rw [hstep, ih, dirFold_files, folderSize_cons, Nat.add_assoc]

mutual
theorem folderSize_walkTree (top : String) (t : FSTree) :
    folderSize (walkTree top t) = ((treeFiles t).map getsize).sum :=
  match t with
  | .node files subdirs => by
    rw [walkTree, folderSize_cons, folderSize_walkSubdirs top subdirs]
    simp [treeFiles]

theorem folderSize_walkSubdirs (top : String) (l : List (String × FSTree)) :
    folderSize (walkSubdirs top l) = ((treeFilesList l).map getsize).sum :=
  match l with
  | [] => by simp [walkSubdirs, treeFilesList, folderSize]
  | (n, t) :: rest => by
    rw [walkSubdirs, folderSize_append, folderSize_walkTree (joinPath top n) t,
      folderSize_walkSubdirs top rest]
    simp [treeFilesList]
end

theorem dirSubtotal_eq_dirTreeSize (p rel : String) (d : Option FSTree) :
    dirSubtotal p rel d = dirTreeSize d := by
  cases d with
  | none => rfl
  | some t =>
    simp [dirSubtotal, os_walk, dirTreeSize, folderSize_walkTree]

theorem dirTreeSize_of_emptyDir {d : Option FSTree} (h : emptyDir d) : dirTreeSize d = 0 := by
  cases d with
  | none => rfl
  | some t =>
    have ht : treeFiles t = [] := h
    simp [dirTreeSize, ht]

theorem run_eq (p : String) (fs : ProjectFS) :
    run p fs =
      { events :=
          binReports (os_walk (joinPath p "dist/bin") fs.dist_bin) ++
            [Event.dirReport "dist/bin" (dirSubtotal p "dist/bin" fs.dist_bin),
             Event.dirReport "dist/browser" (dirSubtotal p "dist/browser" fs.dist_browser),
             Event.dirReport "dist/common" (dirSubtotal p "dist/common" fs.dist_common),
             Event.dirReport "dist/native" (dirSubtotal p "dist/native" fs.dist_native),
             Event.totalReport
               (dirSubtotal p "dist/bin" fs.dist_bin +
                 dirSubtotal p "dist/browser" fs.dist_browser +
                 dirSubtotal p "dist/common" fs.dist_common +
                 dirSubtotal p "dist/native" fs.dist_native)],
        total_size :=
          dirSubtotal p "dist/bin" fs.dist_bin + dirSubtotal p "dist/browser" fs.dist_browser +
            dirSubtotal p "dist/common" fs.dist_common + dirSubtotal p "dist/native" fs.dist_native,
        error :=
          if dirSubtotal p "dist/bin" fs.dist_bin + dirSubtotal p "dist/browser" fs.dist_browser +
              dirSubtotal p "dist/common" fs.dist_common +
              dirSubtotal p "dist/native" fs.dist_native > max_size then
            some ⟨"NPM package exceeds size limit"⟩
          else none } := by
  unfold run
  rw [binLoop_eq, dirLoop_eq, dirLoop_eq, dirLoop_eq]
  simp [dirSubtotal]

theorem run_total_size_eq (p : String) (fs : ProjectFS) :
    (run p fs).total_size =
      dirSubtotal p "dist/bin" fs.dist_bin + dirSubtotal p "dist/browser" fs.dist_browser +
        dirSubtotal p "dist/common" fs.dist_common +
        dirSubtotal p "dist/native" fs.dist_native := by
  rw [run_eq]

theorem run_error_eq (p : String) (fs : ProjectFS) :
    (run p fs).error =
      if (run p fs).total_size > max_size then some ⟨"NPM package exceeds size limit"⟩
      else none := by
  rw [run_total_size_eq, run_eq]

theorem mem_binReports {entries : List (String × List FSFile)} {root : String}
    {files : List FSFile} {f : FSFile}
    (hentry : (root, files) ∈ entries) (hf : f ∈ files)
    (hname : f.name = "aws-crt-nodejs.node") :
    Event.fileReport (joinPath root f.name) (stat_st_size f) ∈ binReports entries := by
  unfold binReports
  rw [List.mem_flatten]
  refine ⟨files.filterMap (fun g =>
    if g.name = "aws-crt-nodejs.node" then
      some (Event.fileReport (joinPath root g.name) (stat_st_size g))
    else none), ?_, ?_⟩
  · exact List.mem_map.2 ⟨(root, files), hentry, rfl⟩
  · exact List.mem_filterMap.2 ⟨f, hf, by simp [hname]⟩

theorem binReports_fileReport {entries : List (String × List FSFile)} {e : Event}
    (he : e ∈ binReports entries) : ∃ q s, e = Event.fileReport q s := by
  unfold binReports at he
  rw [List.mem_flatten] at he
  obtain ⟨l, hl, hel⟩ := he
  rw [List.mem_map] at hl
  obtain ⟨entry, -, rfl⟩ := hl
  rw [List.mem_filterMap] at hel
  obtain ⟨f, -, hf⟩ := hel
  by_cases h : f.name = "aws-crt-nodejs.node"
  · simp [h] at hf
    exact ⟨_, _, hf.symm⟩
  · simp [h] at hf

theorem binReports_no_dirReport (entries : List (String × List FSFile)) :
    (binReports entries).filterMap dirReportSize = [] := by
  rw [List.filterMap_eq_nil_iff]
  intro e he
  obtain ⟨q, s, rfl⟩ := binReports_fileReport he
  rfl

theorem getsize_le_folderSize {entries : List (String × List FSFile)} {root : String}
    {files : List FSFile} {f : FSFile}
    (hentry : (root, files) ∈ entries) (hf : f ∈ files) :
    getsize f ≤ folderSize entries := by
  have h1 : getsize f ≤ (files.map getsize).sum :=
    List.single_le_sum (fun x _ => Nat.zero_le x) _ (List.mem_map.2 ⟨f, hf, rfl⟩)
  have h2 : (files.map getsize).sum ≤ folderSize entries :=
    List.single_le_sum (fun x _ => Nat.zero_le x) _
      (List.mem_map.2 ⟨(root, files), hentry, rfl⟩)
  exact Nat.le_trans h1 h2

/-! ### Claims -/

/-- C1: for every set of regular files placed under the four tracked
directories of the project root, the grand total reported by the audit equals
the exact arithmetic sum of the stat-reported byte sizes of every file found
under those directories, recursively, with no file counted twice and no file
excluded. -/
theorem crt_grand_total_exact (p : String) (fs : ProjectFS) :
    (run p fs).total_size = specTotalSize fs := by
  rw [run_eq]
  simp [specTotalSize, dirSubtotal_eq_dirTreeSize]

/-- C2: the audit raises the size-limit error if and only if the computed
grand total strictly exceeds the fixed threshold of 5,000,000 bytes; in
particular a grand total equal to the threshold succeeds and one of
threshold + 1 fails. -/
theorem crt_threshold_strict (p : String) (fs : ProjectFS) :
    (run p fs).error ≠ none ↔ 5000000 < (run p fs).total_size := by
  constructor
  · intro hne
    rw [run_error_eq] at hne
    by_cases h : (run p fs).total_size > max_size
    · simpa [max_size] using h
    · simp [h] at hne
  · intro hlt
    rw [run_error_eq]
    have h : (run p fs).total_size > max_size := by simpa [max_size] using hlt
    simp [h]

/-- C3: a missing tracked directory contributes exactly zero bytes (its
subtotal is reported as 0) and causes no error, and when every tracked
directory is absent or empty the grand total is 0 and the audit succeeds. -/
theorem crt_missing_dirs_zero (p : String) (fs : ProjectFS) :
    (fs.dist_bin = none → Event.dirReport "dist/bin" 0 ∈ (run p fs).events) ∧
    (fs.dist_browser = none → Event.dirReport "dist/browser" 0 ∈ (run p fs).events) ∧
    (fs.dist_common = none → Event.dirReport "dist/common" 0 ∈ (run p fs).events) ∧
    (fs.dist_native = none → Event.dirReport "dist/native" 0 ∈ (run p fs).events) ∧
    ((emptyDir fs.dist_bin ∧ emptyDir fs.dist_browser ∧ emptyDir fs.dist_common ∧
        emptyDir fs.dist_native) →
      (run p fs).total_size = 0 ∧ (run p fs).error = none) := by
  refine ⟨?_, ?_, ?_, ?_, ?_⟩
  · intro h
    rw [run_eq]
    simp [dirSubtotal_eq_dirTreeSize, h, dirTreeSize]
  · intro h
    rw [run_eq]
    simp [dirSubtotal_eq_dirTreeSize, h, dirTreeSize]
  · intro h
    rw [run_eq]
    simp [dirSubtotal_eq_dirTreeSize, h, dirTreeSize]
  · intro h
    rw [run_eq]
    simp [dirSubtotal_eq_dirTreeSize, h, dirTreeSize]
  · rintro ⟨h1, h2, h3, h4⟩
    rw [run_eq]
    simp [dirSubtotal_eq_dirTreeSize, dirTreeSize_of_emptyDir h1,
      dirTreeSize_of_emptyDir h2, dirTreeSize_of_emptyDir h3,
      dirTreeSize_of_emptyDir h4, max_size]

/-- Witness for C3 at a project root with all four directories missing. -/
theorem crt_missing_dirs_zero_witness :
    (run "proj" fsAllMissing).total_size = 0 ∧ (run "proj" fsAllMissing).error = none ∧
      Event.dirReport "dist/bin" 0 ∈ (run "proj" fsAllMissing).events := by
  have h := crt_missing_dirs_zero "proj" fsAllMissing
  exact ⟨(h.2.2.2.2 ⟨trivial, trivial, trivial, trivial⟩).1,
    (h.2.2.2.2 ⟨trivial, trivial, trivial, trivial⟩).2, h.1 rfl⟩

/-- C4 counterexample: two invocations whose grand totals differ (5,000,001
bytes versus 6,000,000 bytes, both over the limit) raise exactly the same
exception value, so the raised error carries neither the observed grand total
nor the threshold — it is the fixed message string only. -/
theorem crt_error_payload_counterexample :
    (run "proj" fsOver1).total_size ≠ (run "proj" fsOver2).total_size ∧
      (run "proj" fsOver1).error = some ⟨"NPM package exceeds size limit"⟩ ∧
      (run "proj" fsOver2).error = (run "proj" fsOver1).error := by
  refine ⟨by decide, by decide, by decide⟩

/-- C4 amended: when the grand total exceeds the threshold, the audit fails by
raising the exception with the fixed message string, and the observed grand
total is reported on the printed grand-total line (the error itself carries
neither the total nor the threshold). -/
theorem crt_error_on_exceed (p : String) (fs : ProjectFS)
    (h : max_size < (run p fs).total_size) :
    (run p fs).error = some ⟨"NPM package exceeds size limit"⟩ ∧
      Event.totalReport (run p fs).total_size ∈ (run p fs).events := by
  rw [run_eq] at h ⊢
  simp only [RunResult.total_size] at h
  constructor
  · simp [h]
  · simp

/-- Witness for C4's amended theorem at a 5,000,001-byte package. -/
theorem crt_error_on_exceed_witness :
    max_size < (run "proj" fsOver1).total_size ∧
      (run "proj" fsOver1).error = some ⟨"NPM package exceeds size limit"⟩ := by
  have h : max_size < (run "proj" fsOver1).total_size := by decide
  exact ⟨h, (crt_error_on_exceed "proj" fsOver1 h).1⟩

/-- C5: exactly four per-directory subtotal reports are emitted, and they sum
exactly to the final reported grand total — no double counting, no
omissions. -/
theorem crt_subtotals_sum_to_total (p : String) (fs : ProjectFS) :
    ((run p fs).events.filterMap dirReportSize).length = 4 ∧
      ((run p fs).events.filterMap dirReportSize).sum = (run p fs).total_size := by
  rw [run_eq]
  simp [List.filterMap_append, binReports_no_dirReport, dirReportSize]
  omega

/-- C6: a file under `dist/bin` named `aws-crt-nodejs.node` gets an individual
per-file size report emitted before the `dist/bin` subtotal report, its size is
included in the bin subtotal and hence the grand total, and every per-file
report in the output originates from the `dist/bin` walk — files in the other
three tracked directories never trigger one. -/
theorem crt_artifact_individual_report (p : String) (fs : ProjectFS)
    (root : String) (files : List FSFile) (f : FSFile)
    (hentry : (root, files) ∈ os_walk (joinPath p "dist/bin") fs.dist_bin)
    (hf : f ∈ files) (hname : f.name = "aws-crt-nodejs.node") :
    ∃ pre post,
      (run p fs).events =
          pre ++ Event.dirReport "dist/bin" (dirSubtotal p "dist/bin" fs.dist_bin) :: post ∧
        Event.fileReport (joinPath root f.name) (stat_st_size f) ∈ pre ∧
        getsize f ≤ dirSubtotal p "dist/bin" fs.dist_bin ∧
        dirSubtotal p "dist/bin" fs.dist_bin ≤ (run p fs).total_size ∧
        (∀ e ∈ (run p fs).events, (∃ q s, e = Event.fileReport q s) →
          e ∈ binReports (os_walk (joinPath p "dist/bin") fs.dist_bin)) := by
  refine ⟨binReports (os_walk (joinPath p "dist/bin") fs.dist_bin),
    [Event.dirReport "dist/browser" (dirSubtotal p "dist/browser" fs.dist_browser),
     Event.dirReport "dist/common" (dirSubtotal p "dist/common" fs.dist_common),
     Event.dirReport "dist/native" (dirSubtotal p "dist/native" fs.dist_native),
     Event.totalReport (run p fs).total_size], ?_, ?_, ?_, ?_, ?_⟩
  · rw [run_eq]
  · exact mem_binReports hentry hf hname
  · exact getsize_le_folderSize hentry hf
  · rw [run_total_size_eq]
    omega
  · intro e he hfr
    obtain ⟨q, s, rfl⟩ := hfr
    rw [run_eq] at he
    simp only [RunResult.events, List.mem_append, List.mem_cons, List.not_mem_nil,
      or_false] at he
    rcases he with he | he | he | he | he | he
    · exact he
    all_goals cases he

/-- Witness for C6 at a `dist/bin` holding only the 500-byte artifact. -/
theorem crt_artifact_individual_report_witness :
    ∃ pre post,
      (run "proj" fsArtifact).events =
          pre ++ Event.dirReport "dist/bin"
            (dirSubtotal "proj" "dist/bin" fsArtifact.dist_bin) :: post ∧
        Event.fileReport (joinPath (joinPath "proj" "dist/bin") artifact500.name)
            (stat_st_size artifact500) ∈ pre ∧
        getsize artifact500 ≤ dirSubtotal "proj" "dist/bin" fsArtifact.dist_bin ∧
        dirSubtotal "proj" "dist/bin" fsArtifact.dist_bin ≤ (run "proj" fsArtifact).total_size ∧
        (∀ e ∈ (run "proj" fsArtifact).events, (∃ q s, e = Event.fileReport q s) →
          e ∈ binReports (os_walk (joinPath "proj" "dist/bin") fsArtifact.dist_bin)) :=
  crt_artifact_individual_report "proj" fsArtifact (joinPath "proj" "dist/bin")
    [artifact500] artifact500 (by decide) (by decide) rfl

/-- C7: the audit processes the four tracked directories in the fixed order
bin, browser, common, native — the console output is the bin per-file reports
followed by the four subtotal reports in that order and the grand-total
report — the grand total is the sum of the four subtotals, and the threshold
comparison is a function of the completed grand total alone. -/
theorem crt_processing_order (p : String) (fs : ProjectFS) :
    (run p fs).events =
        binReports (os_walk (joinPath p "dist/bin") fs.dist_bin) ++
          [Event.dirReport "dist/bin" (dirSubtotal p "dist/bin" fs.dist_bin),
           Event.dirReport "dist/browser" (dirSubtotal p "dist/browser" fs.dist_browser),
           Event.dirReport "dist/common" (dirSubtotal p "dist/common" fs.dist_common),
           Event.dirReport "dist/native" (dirSubtotal p "dist/native" fs.dist_native),
           Event.totalReport (run p fs).total_size] ∧
      (run p fs).total_size =
          dirSubtotal p "dist/bin" fs.dist_bin + dirSubtotal p "dist/browser" fs.dist_browser +
            dirSubtotal p "dist/common" fs.dist_common +
            dirSubtotal p "dist/native" fs.dist_native ∧
      (run p fs).error =
        (if (run p fs).total_size > max_size then
          some ⟨"NPM package exceeds size limit"⟩ else none) := by
  refine ⟨?_, run_total_size_eq p fs, run_error_eq p fs⟩
  rw [run_total_size_eq, run_eq]

/-- C8: the audit performs no filesystem writes — threading the filesystem
state through every read the script performs returns it unchanged, whether the
audit succeeds or fails, and yields the same result as the audit itself. -/
theorem crt_no_filesystem_writes (p : String) (fs : ProjectFS) :
    (runFSState p fs).2 = fs ∧ (runFSState p fs).1 = run p fs :=
  ⟨rfl, rfl⟩

/-- C9: even on a failing invocation the error is only raised after all four
directories have been traversed and every console report emitted: the output
is some per-file reports followed by the four per-directory subtotal lines and
the final grand-total line, in that order. -/
theorem crt_error_after_reports (p : String) (fs : ProjectFS)
    (h : (run p fs).error ≠ none) :
    ∃ pre, (∀ e ∈ pre, ∃ q s, e = Event.fileReport q s) ∧
      (run p fs).events =
        pre ++ [Event.dirReport "dist/bin" (dirSubtotal p "dist/bin" fs.dist_bin),
                Event.dirReport "dist/browser" (dirSubtotal p "dist/browser" fs.dist_browser),
                Event.dirReport "dist/common" (dirSubtotal p "dist/common" fs.dist_common),
                Event.dirReport "dist/native" (dirSubtotal p "dist/native" fs.dist_native),
                Event.totalReport (run p fs).total_size] := by
  refine ⟨binReports (os_walk (joinPath p "dist/bin") fs.dist_bin), ?_, ?_⟩
  · intro e he
    exact binReports_fileReport he
  · rw [run_eq]

/-- Witness for C9 at a failing 5,000,001-byte package. -/
theorem crt_error_after_reports_witness :
    (run "proj" fsOver1).error ≠ none ∧
      ∃ pre, (∀ e ∈ pre, ∃ q s, e = Event.fileReport q s) ∧
        (run "proj" fsOver1).events =
          pre ++ [Event.dirReport "dist/bin" (dirSubtotal "proj" "dist/bin" fsOver1.dist_bin),
                  Event.dirReport "dist/browser"
                    (dirSubtotal "proj" "dist/browser" fsOver1.dist_browser),
                  Event.dirReport "dist/common"
                    (dirSubtotal "proj" "dist/common" fsOver1.dist_common),
                  Event.dirReport "dist/native"
                    (dirSubtotal "proj" "dist/native" fsOver1.dist_native),
                  Event.totalReport (run "proj" fsOver1).total_size] :=
  ⟨by decide, crt_error_after_reports "proj" fsOver1 (by decide)⟩

/-- C10: the two size-measuring paths of the bin loop agree — the size printed
in the individual per-file report (`os.stat(fp).st_size`) equals the size added
to the bin subtotal for the same file (`os.path.getsize(fp)`). -/
theorem crt_stat_getsize_agree (root : String) (st : List Event × Nat) (f : FSFile)
    (h : f.name = "aws-crt-nodejs.node") :
    stat_st_size f = getsize f ∧
      binStep root st f =
        (st.1 ++ [Event.fileReport (joinPath root f.name) (getsize f)],
          st.2 + getsize f) := by
  refine ⟨rfl, ?_⟩
  simp [binStep, h, stat_st_size, getsize]

/-- Witness for C10 at the 500-byte artifact file. -/
theorem crt_stat_getsize_agree_witness :
    stat_st_size artifact500 = getsize artifact500 ∧
      binStep "r" ([], 0) artifact500 =
        (([] : List Event) ++ [Event.fileReport (joinPath "r" artifact500.name)
            (getsize artifact500)],
          0 + getsize artifact500) :=
  crt_stat_getsize_agree "r" ([], 0) artifact500 rfl
